import Mathlib

/-!
Verification development for the client/server networking runtime
(`src/Client.cpp`) and the lockstep demo (`LockstepDemo.cpp`).

Part 1 embeds the client connection state machine of `Client.cpp`.
C++ `double` time values are modelled as exact rationals (`ℚ`), 64-bit
GUIDs and addresses as `Nat` (only compared for equality), and the
opaque external collaborators (connection channel, data-block
sender/receiver, resolver, network interface) as oracle parameters or
trace events: the outcome of `m_connection->ReadPacket` and of
`m_dataBlockReceiver->ProcessFragment`/`IsError` travel with the packet
that triggers the call, and calls into external components are recorded
as effects in an append-only trace.
-/

namespace NetProto

/-- Client states, in the order of the `ClientState` enumeration
(`DISCONNECTED < RESOLVING_HOSTNAME < SENDING_CONNECTION_REQUEST <
SENDING_CHALLENGE_RESPONSE < SENDING_CLIENT_DATA < READY_FOR_CONNECTION
< CONNECTED`). -/
inductive ClientState where
  | DISCONNECTED
  | RESOLVING_HOSTNAME
  | SENDING_CONNECTION_REQUEST
  | SENDING_CHALLENGE_RESPONSE
  | SENDING_CLIENT_DATA
  | READY_FOR_CONNECTION
  | CONNECTED
  deriving DecidableEq, Repr

/-- Numeric value of a client state (the enumeration order); this is the
value stored into `m_extendedError` on a connection timeout. -/
def ClientState.toNat : ClientState → Nat
  | .DISCONNECTED => 0
  | .RESOLVING_HOSTNAME => 1
  | .SENDING_CONNECTION_REQUEST => 2
  | .SENDING_CHALLENGE_RESPONSE => 3
  | .SENDING_CLIENT_DATA => 4
  | .READY_FOR_CONNECTION => 5
  | .CONNECTED => 6

/-- Client error codes (`ClientError`). -/
inductive ClientError where
  | NONE
  | RESOLVE_HOSTNAME_FAILED
  | INVALID_CONNECT_ADDRESS
  | MISSING_RESOLVER
  | CONNECTION_REQUEST_DENIED
  | CONNECTION_TIMED_OUT
  | CONNECTION_ERROR
  | DISCONNECTED_FROM_SERVER
  | DATA_BLOCK_ERROR
  deriving DecidableEq, Repr

/-- Calls made by the client into its external collaborators, recorded
as an append-only trace: the `Disconnected` packet handed to the network
interface, `m_connection->Reset()`, `Clear()`/`SetInfo(info)` on the
data block sender and receiver, and `resolver->Resolve(hostname)`. -/
inductive ClientEffect where
  | sentDisconnected (addr clientGuid serverGuid : Nat)
  | connectionReset
  | senderCleared
  | receiverCleared
  | senderSetInfo
  | receiverSetInfo
  | resolveRequested (hostname : String)
  deriving DecidableEq, Repr

/-- The parts of `ClientConfig` the state machine reads, plus the
`PROTOCOL_USE_RESOLVER` compile-time flag.  `hasClientData` stands for
`m_config.clientData != nullptr` (which is also exactly when
`m_dataBlockSender` was created); `hasDataBlockReceiver` stands for
`m_config.maxServerDataSize > 0` (when `m_dataBlockReceiver` was
created). -/
structure ClientConfig where
  hasClientData : Bool
  hasDataBlockReceiver : Bool
  hasResolver : Bool
  useResolver : Bool
  connectingTimeOut : ℚ
  connectedTimeOut : ℚ
  deriving DecidableEq, Repr

/-- The client's mutable state (`Client` members read by the modelled
functions).  `time` is `m_timeBase.time` as set at the top of
`Client::Update`. -/
structure Client where
  config : ClientConfig
  state : ClientState
  error : ClientError
  extendedError : Nat
  address : Nat
  hostname : String
  clientGuid : Nat
  serverGuid : Nat
  lastPacketReceiveTime : ℚ
  time : ℚ
  trace : List ClientEffect
  deriving DecidableEq, Repr

def Client.IsDisconnected (c : Client) : Bool :=
  c.state = ClientState.DISCONNECTED

def Client.IsConnected (c : Client) : Bool :=
  c.state = ClientState.CONNECTED

/-- `Client::ClearStateData`. -/
def Client.ClearStateData (c : Client) : Client :=
  { c with hostname := "", address := 0, clientGuid := 0, serverGuid := 0 }

/-- `Client::ClearError`. -/
def Client.ClearError (c : Client) : Client :=
  { c with error := ClientError.NONE, extendedError := 0 }

/-- `Client::Disconnect`: no-op when already disconnected; otherwise
send a `Disconnected` packet stamped with the current GUIDs, reset the
connection, clear state data, enter `DISCONNECTED`, and clear the data
block sender/receiver when they exist. -/
def Client.Disconnect (c : Client) : Client :=
  if c.IsDisconnected then c
  else
    let c := { c with trace := c.trace ++
      [ClientEffect.sentDisconnected c.address c.clientGuid c.serverGuid,
       ClientEffect.connectionReset] }
    let c := c.ClearStateData
    let c := { c with state := ClientState.DISCONNECTED, address := 0, hostname := "" }
    let c := if c.config.hasClientData then
        { c with trace := c.trace ++ [ClientEffect.senderCleared] } else c
    if c.config.hasDataBlockReceiver then
        { c with trace := c.trace ++ [ClientEffect.receiverCleared] } else c

/-- `Client::DisconnectAndSetError`. -/
def Client.DisconnectAndSetError (c : Client) (error : ClientError)
    (extendedError : Nat) : Client :=
  let c := c.Disconnect
  { c with error := error, extendedError := extendedError }

/-- `Client::Connect(const Address&)`; `generate_guid()` is modelled by
the `freshGuid` parameter. -/
def Client.ConnectByAddress (c : Client) (address : Nat) (freshGuid : Nat) : Client :=
  let c := c.Disconnect
  let c := c.ClearError
  { c with state := ClientState.SENDING_CONNECTION_REQUEST,
           address := address, clientGuid := freshGuid }

/-- `Client::Connect(const char*)`.  `parsed` is the result of the
`Address(hostname)` parse (`some a` when `address.IsValid()`).  When the
build uses the resolver (`PROTOCOL_USE_RESOLVER`), a missing resolver
sets `CLIENT_ERROR_MISSING_RESOLVER` but — as in the source, which has
no `return` there — still falls through into the resolving path. -/
def Client.ConnectByHostname (c : Client) (hostname : String)
    (parsed : Option Nat) (freshGuid : Nat) : Client :=
  let c := c.Disconnect
  let c := c.ClearError
  match parsed with
  | some address => c.ConnectByAddress address freshGuid
  | none =>
    if c.config.useResolver then
      let c := if ¬c.config.hasResolver then
          c.DisconnectAndSetError ClientError.MISSING_RESOLVER 0
        else c
      let c := { c with trace := c.trace ++ [ClientEffect.resolveRequested hostname] }
      { c with state := ClientState.RESOLVING_HOSTNAME,
               lastPacketReceiveTime := c.time, hostname := hostname }
    else
      c.DisconnectAndSetError ClientError.INVALID_CONNECT_ADDRESS 0

/-- The client/server packets dispatched by `Client::UpdateReceivePackets`.
`addr` is `packet->GetAddress()` (attached by the transport on receive).
Outcomes of calls into the opaque channel and data-block receiver travel
with the packet: `readOk` is what `m_connection->ReadPacket` returns for
this `Connection` packet, and `recvError` is `some e` when the data
block receiver reports `IsError()` with `GetError() = e` after
`ProcessFragment` on this fragment. -/
inductive CSPacket where
  | disconnectedPkt (addr clientGuid serverGuid : Nat)
  | connectionChallenge (addr clientGuid serverGuid : Nat)
  | connectionDenied (addr clientGuid : Nat) (reason : Nat)
  | readyForConnection (addr clientGuid serverGuid : Nat)
  | dataBlockFragment (addr clientGuid serverGuid : Nat)
      (blockSize numFragments fragmentId fragmentBytes : Nat) (recvError : Option Nat)
  | dataBlockFragmentAck (addr clientGuid serverGuid : Nat) (fragmentId : Nat)
  | connection (addr : Nat) (readOk : Bool)
  deriving DecidableEq, Repr

/-- `Client::ProcessDisconnected`: drop unless the source address and
both GUIDs match, else disconnect with `DISCONNECTED_FROM_SERVER`. -/
def Client.ProcessDisconnected (c : Client) (addr clientGuid serverGuid : Nat) : Client :=
  if addr ≠ c.address then c
  else if clientGuid ≠ c.clientGuid then c
  else if serverGuid ≠ c.serverGuid then c
  else c.DisconnectAndSetError ClientError.DISCONNECTED_FROM_SERVER 0

/-- `Client::ProcessDataBlockFragment`: drop unless both GUIDs match
(the source address is not checked); feed the receiver when present and
surface a latched receiver error as `DATA_BLOCK_ERROR`. -/
def Client.ProcessDataBlockFragment (c : Client) (clientGuid serverGuid : Nat)
    (recvError : Option Nat) : Client :=
  if clientGuid ≠ c.clientGuid then c
  else if serverGuid ≠ c.serverGuid then c
  else if ¬c.config.hasDataBlockReceiver then c
  else match recvError with
    | some e => c.DisconnectAndSetError ClientError.DATA_BLOCK_ERROR e
    | none => c

/-- `Client::ProcessDataBlockFragmentAck`: drop unless both GUIDs match
(the source address is not checked); feed the sender when present
(`ProcessAck` is a call into the external sender). -/
def Client.ProcessDataBlockFragmentAck (c : Client) (clientGuid serverGuid : Nat) : Client :=
  if clientGuid ≠ c.clientGuid then c
  else if serverGuid ≠ c.serverGuid then c
  else if ¬c.config.hasClientData then c
  else c

/-- One iteration of the receive loop of `Client::UpdateReceivePackets`:
`Disconnected` packets are handled in every state; all other packets are
dispatched on the current state, and unknown (state, type) pairs are
dropped. -/
def Client.ProcessPacket (c : Client) (p : CSPacket) : Client :=
  match p with
  | CSPacket.disconnectedPkt addr cg sg => c.ProcessDisconnected addr cg sg
  | _ =>
    match c.state with
    | ClientState.SENDING_CONNECTION_REQUEST =>
      match p with
      | CSPacket.connectionChallenge addr cg sg =>
        if addr = c.address ∧ cg = c.clientGuid then
          let c := { c with state := ClientState.SENDING_CHALLENGE_RESPONSE,
                            serverGuid := sg,
                            lastPacketReceiveTime := c.time }
          let c := if c.config.hasClientData then
              { c with trace := c.trace ++ [ClientEffect.senderSetInfo] } else c
          if c.config.hasDataBlockReceiver then
              { c with trace := c.trace ++ [ClientEffect.receiverSetInfo] } else c
        else c
      | CSPacket.connectionDenied addr cg reason =>
        if addr = c.address ∧ cg = c.clientGuid then
          c.DisconnectAndSetError ClientError.CONNECTION_REQUEST_DENIED reason
        else c
      | _ => c
    | ClientState.SENDING_CHALLENGE_RESPONSE =>
      match p with
      | CSPacket.dataBlockFragment _ cg sg _ _ _ _ recvError =>
        c.ProcessDataBlockFragment cg sg recvError
      | CSPacket.readyForConnection addr cg sg =>
        if addr = c.address ∧ cg = c.clientGuid ∧ sg = c.serverGuid then
          if ¬c.config.hasClientData then
            { c with state := ClientState.READY_FOR_CONNECTION,
                     lastPacketReceiveTime := c.time }
          else
            { c with state := ClientState.SENDING_CLIENT_DATA,
                     lastPacketReceiveTime := c.time }
        else c
      | _ => c
    | ClientState.SENDING_CLIENT_DATA =>
      match p with
      | CSPacket.dataBlockFragment _ cg sg _ _ _ _ recvError =>
        c.ProcessDataBlockFragment cg sg recvError
      | CSPacket.dataBlockFragmentAck _ cg sg _ =>
        c.ProcessDataBlockFragmentAck cg sg
      | _ => c
    | ClientState.READY_FOR_CONNECTION =>
      match p with
      | CSPacket.dataBlockFragment _ cg sg _ _ _ _ recvError =>
        c.ProcessDataBlockFragment cg sg recvError
      | CSPacket.connection _ readOk =>
        let c := { c with state := ClientState.CONNECTED }
        if readOk then { c with lastPacketReceiveTime := c.time } else c
      | _ => c
    | ClientState.CONNECTED =>
      match p with
      | CSPacket.dataBlockFragment _ cg sg _ _ _ _ recvError =>
        c.ProcessDataBlockFragment cg sg recvError
      | CSPacket.connection _ readOk =>
        if readOk then { c with lastPacketReceiveTime := c.time } else c
      | _ => c
    | _ => c

/-- `Client::UpdateReceivePackets`: drain the inbound queue. -/
def Client.UpdateReceivePackets (c : Client) (packets : List CSPacket) : Client :=
  packets.foldl Client.ProcessPacket c

/-- `Client::UpdateTimeout`: nothing when disconnected; otherwise time
out against `connectedTimeOut` when connected, `connectingTimeOut`
otherwise, carrying the state before the disconnect as the extended
error. -/
def Client.UpdateTimeout (c : Client) : Client :=
  if c.IsDisconnected then c
  else
    let timeout : ℚ := if c.IsConnected then c.config.connectedTimeOut
                       else c.config.connectingTimeOut
    if c.lastPacketReceiveTime + timeout < c.time then
      c.DisconnectAndSetError ClientError.CONNECTION_TIMED_OUT c.state.toNat
    else c

/-- A concrete client used by the concrete-input theorems below. -/
def demoClient : Client :=
  { config := { hasClientData := false, hasDataBlockReceiver := false,
                hasResolver := false, useResolver := true,
                connectingTimeOut := 5, connectedTimeOut := 10 }
    state := ClientState.READY_FOR_CONNECTION
    error := ClientError.NONE
    extendedError := 0
    address := 1, hostname := "", clientGuid := 11, serverGuid := 22
    lastPacketReceiveTime := 0, time := 7, trace := [] }

/-- The concrete client, already disconnected. -/
def disconnectedDemoClient : Client :=
  { demoClient with state := ClientState.DISCONNECTED }

/-- The concrete client, in the middle of sending its client data. -/
def sendingDataDemoClient : Client :=
  { demoClient with
      state := ClientState.SENDING_CLIENT_DATA
      config := { demoClient.config with
                    hasClientData := true
                    hasDataBlockReceiver := true } }

/-- The packet kinds the client validates against the session, and the
exact checks the source performs on each: source address and GUIDs for
the handshake packets, both GUIDs (but not the address) for data block
fragments and fragment acks.  `Connection` packets are not validated at
all, so they never count as mismatching. -/
def Client.sessionMismatch (c : Client) : CSPacket → Bool
  | CSPacket.disconnectedPkt addr cg sg =>
      addr ≠ c.address ∨ cg ≠ c.clientGuid ∨ sg ≠ c.serverGuid
  | CSPacket.connectionChallenge addr cg _ =>
      ¬(addr = c.address ∧ cg = c.clientGuid)
  | CSPacket.connectionDenied addr cg _ =>
      ¬(addr = c.address ∧ cg = c.clientGuid)
  | CSPacket.readyForConnection addr cg sg =>
      ¬(addr = c.address ∧ cg = c.clientGuid ∧ sg = c.serverGuid)
  | CSPacket.dataBlockFragment _ cg sg _ _ _ _ _ =>
      cg ≠ c.clientGuid ∨ sg ≠ c.serverGuid
  | CSPacket.dataBlockFragmentAck _ cg sg _ =>
      cg ≠ c.clientGuid ∨ sg ≠ c.serverGuid
  | CSPacket.connection _ _ => false

/-- Data block fragment / fragment ack packets. -/
def CSPacket.isDataBlockPacket : CSPacket → Bool
  | CSPacket.dataBlockFragment _ _ _ _ _ _ _ _ => true
  | CSPacket.dataBlockFragmentAck _ _ _ _ => true
  | _ => false

/-- A packet whose processing does not make the data block receiver
report an error (true for every non-fragment packet). -/
def CSPacket.fragmentNoError : CSPacket → Bool
  | CSPacket.dataBlockFragment _ _ _ _ _ _ _ (some _) => false
  | _ => true

/-!
Part 2: the lockstep demo (`LockstepDemo.cpp`).

`game::Input` is the six-button input whose fields the input packet
serializer reads (`left, right, up, down, push, pull`); inequality is
field-wise.  16-bit sequence arithmetic is modelled over `Nat` with
explicit `% 65536`.  `double`/`float` time values are modelled as exact
rationals; the constants `PlayoutDelay = 0.25` and the frame length
`1/60` are exact.
-/

def MaxInputs : Nat := 256

/-- Reduction to a 16-bit value. -/
def u16 (n : Nat) : Nat := n % 65536

/-- 16-bit subtraction `a - b` (as computed on `uint16_t`). -/
def sub16 (a b : Nat) : Nat := u16 (a + 65536 - u16 b)

/-- Modelled from the spec: `core::sequence_greater_than` lives in the
core library, which is not among the source files; the glossary defines
it as `a > b` iff the signed 16-bit difference `a - b` is strictly
positive, i.e. `(a - b) mod 2^16 ∈ [1, 32767]`. -/
def sequence_greater_than (s1 s2 : Nat) : Bool :=
  1 ≤ sub16 s1 s2 ∧ sub16 s1 s2 ≤ 32767

/-- `game::Input`: the six buttons serialized by `LockstepInputPacket`. -/
structure GameInput where
  left : Bool
  right : Bool
  up : Bool
  down : Bool
  push : Bool
  pull : Bool
  deriving DecidableEq, Repr

/-- `LockstepPlayoutDelayBuffer`.  The queue is the source's
`core::Queue<game::Input>`, instrumented for specification purposes
with the 16-bit sequence number under which each input was accepted
(the `Input` components are exactly what the source stores). -/
structure PlayoutDelayBuffer where
  stopped : Bool
  start_time : ℚ
  most_recent_input : Nat
  frame : Nat
  input_queue : List (Nat × GameInput)
  deriving DecidableEq, Repr

/-- The buffer as constructed. -/
def PlayoutDelayBuffer.init : PlayoutDelayBuffer :=
  { stopped := true, start_time := 0, most_recent_input := 0,
    frame := 0, input_queue := [] }

/-- The loop of `AddInputs`: iteration `i` computes
`sequence = first_input_sequence + i` (16-bit) and appends `inputs[i]`
exactly when it equals `most_recent_input`, which then advances. -/
def addInputsGo (buf : PlayoutDelayBuffer) (first i : Nat) :
    List GameInput → PlayoutDelayBuffer
  | [] => buf
  | inp :: rest =>
    let seq := u16 (first + i)
    let buf := if seq = buf.most_recent_input then
        { buf with most_recent_input := u16 (seq + 1),
                   input_queue := buf.input_queue ++ [(seq, inp)] }
      else buf
    addInputsGo buf first (i + 1) rest

/-- `LockstepPlayoutDelayBuffer::AddInputs` (the caller guarantees
`0 < inputs.length ≤ MaxInputs`). -/
def PlayoutDelayBuffer.AddInputs (buf : PlayoutDelayBuffer) (time : ℚ)
    (sequence : Nat) (inputs : List GameInput) : PlayoutDelayBuffer :=
  let buf := if buf.stopped then
      { buf with start_time := time, stopped := false }
    else buf
  let first := sub16 sequence inputs.length
  addInputsGo buf first 0 inputs

/-- The loop of `GetFrames`, with `fuel` iterations left out of
`MaxSimFrames`: stop as soon as the playout time for the current frame
has not been reached or the queue is empty; otherwise emit the front of
the queue and advance `frame`. -/
def getFramesGo : Nat → PlayoutDelayBuffer → ℚ →
    PlayoutDelayBuffer × List (Nat × GameInput)
  | 0, buf, _ => (buf, [])
  | fuel + 1, buf, time =>
    if time < buf.start_time + ((buf.frame : ℚ) + 1/2) * (1/60) + 1/4 then (buf, [])
    else
      match buf.input_queue with
      | [] => (buf, [])
      | x :: q =>
        let r := getFramesGo fuel { buf with input_queue := q, frame := buf.frame + 1 } time
        (r.1, x :: r.2)

/-- `LockstepPlayoutDelayBuffer::GetFrames`.  `MaxSimFrames` is a
compile-time constant from the demo framework headers (not among the
source files), so it is a parameter; the emitted list is
`frame_input[0 .. num_frames)` and its length is `num_frames`. -/
def PlayoutDelayBuffer.GetFrames (maxSimFrames : Nat) (buf : PlayoutDelayBuffer)
    (time : ℚ) : PlayoutDelayBuffer × List (Nat × GameInput) :=
  if buf.stopped then (buf, [])
  else getFramesGo maxSimFrames buf time

/-- An interleaving of operations applied to the playout delay buffer. -/
inductive PDOp where
  | add (time : ℚ) (sequence : Nat) (inputs : List GameInput)
  | get (time : ℚ)
  deriving Repr

/-- Run a sequence of operations from a state, accumulating every frame
emitted by `GetFrames`. -/
def runPDOps (maxSimFrames : Nat) :
    PlayoutDelayBuffer × List (Nat × GameInput) → List PDOp →
    PlayoutDelayBuffer × List (Nat × GameInput)
  | st, [] => st
  | (buf, emitted), PDOp.add time sequence inputs :: ops =>
      runPDOps maxSimFrames (buf.AddInputs time sequence inputs, emitted) ops
  | (buf, emitted), PDOp.get time :: ops =>
      let r := buf.GetFrames maxSimFrames time
      runPDOps maxSimFrames (r.1, emitted ++ r.2) ops

/-! The receive half of `LockstepDemo::Update`: the per-tick loop over
packets delivered by the network simulator, tracking the ack state
(`received_input_this_frame`, `ack_sequence`) and the playout delay
buffer.  Handling an ack packet (`port == LeftPort`, non-TCP mode) only
touches the sender-side sliding window, which is external to the
receiver state modelled here. -/

def LeftPort : Nat := 1000
def RightPort : Nat := 1001

inductive RxPayload where
  | inputPayload (sequence : Nat) (inputs : List GameInput)
  | ackPayload (ack : Nat)
  deriving DecidableEq, Repr

/-- A packet coming out of `ReceivePacket()` in `LockstepDemo::Update`,
with the port of its source address. -/
structure RxPacket where
  port : Nat
  payload : RxPayload
  deriving DecidableEq, Repr

/-- The receiver-side state accumulated across one tick's receive loop. -/
structure RxTickState where
  received_input_this_frame : Bool
  ack_sequence : Nat
  buffer : PlayoutDelayBuffer
  deriving DecidableEq, Repr

/-- One iteration of the receive loop (the serialize-write/read
round-trip performed there is the subject of the serializer model
below; here the packet arrives already as a value). -/
def processRxPacket (tcpMode : Bool) (time : ℚ) (st : RxTickState)
    (p : RxPacket) : RxTickState :=
  match p.payload with
  | RxPayload.inputPayload sequence inputs =>
    if p.port = RightPort then
      let st :=
        if ¬tcpMode then
          if ¬st.received_input_this_frame then
            { st with received_input_this_frame := true,
                      ack_sequence := sub16 sequence 1 }
          else if sequence_greater_than (sub16 sequence 1) st.ack_sequence then
            { st with ack_sequence := sub16 sequence 1 }
          else st
        else st
      { st with buffer := st.buffer.AddInputs time sequence inputs }
    else st
  | RxPayload.ackPayload _ => st

/-- The whole receive loop of one tick. -/
def runRxTick (tcpMode : Bool) (time : ℚ) (buf : PlayoutDelayBuffer)
    (packets : List RxPacket) : RxTickState :=
  packets.foldl (processRxPacket tcpMode time)
    { received_input_this_frame := false, ack_sequence := 0, buffer := buf }

/-- The end-of-tick ack send: one `LockstepAckPacket { ack }` goes back
to the left simulation exactly when `received_input_this_frame`. -/
def tickAckSent (st : RxTickState) : Option Nat :=
  if st.received_input_this_frame then some st.ack_sequence else none

/-- The candidate acks of a tick: `packet.sequence - 1` (16-bit) for
each input packet arriving on the right port, in arrival order. -/
def inputCandidates : List RxPacket → List Nat
  | [] => []
  | p :: ps =>
    match p.payload with
    | RxPayload.inputPayload sequence _ =>
      if p.port = RightPort then sub16 sequence 1 :: inputCandidates ps
      else inputCandidates ps
    | RxPayload.ackPayload _ => inputCandidates ps

/-- Keep the sequence-wrap-greater of a running value and a candidate. -/
def wrapMax (a c : Nat) : Nat := if sequence_greater_than c a then c else a

/-!
Bit-level model of `LockstepInputPacket`'s serializer
(`PROTOCOL_SERIALIZE_OBJECT`): a symmetric bitstream, written and read
in the same field order.  `serialize_uint16` is 16 bits,
`serialize_int(stream, num_inputs, 0, MaxInputs)` is 9 bits (range
0..256) with an out-of-range check on read, `serialize_bool` is one
bit.  The first input is fully encoded; each later input is one
"changed" bit, followed by the full six input bits when set, and is
copied from the previous input on read when clear.
-/

/-- Write `n` as `w` bits, least significant first. -/
def bitsOfNat : Nat → Nat → List Bool
  | 0, _ => []
  | w + 1, n => decide (n % 2 = 1) :: bitsOfNat w (n / 2)

/-- Read back a little-endian bit string. -/
def natOfBits : List Bool → Nat
  | [] => 0
  | b :: bs => (if b then 1 else 0) + 2 * natOfBits bs

/-- The six bits of one input, in the order the serializer writes them. -/
def inputBits (i : GameInput) : List Bool :=
  [i.left, i.right, i.up, i.down, i.push, i.pull]

/-- Write path of the per-input loop (`i = 1 .. num_inputs-1`):
`input_changed = inputs[i] != inputs[i-1]`, then the six bits only when
changed. -/
def writeRestInputs : GameInput → List GameInput → List Bool
  | _, [] => []
  | prev, i :: rest =>
    let changed := decide (i ≠ prev)
    (changed :: (if changed then inputBits i else [])) ++ writeRestInputs i rest

/-- Writing a `LockstepInputPacket{sequence, num_inputs, inputs}`. -/
def writeInputPacket (sequence : Nat) (inputs : List GameInput) : List Bool :=
  bitsOfNat 16 sequence ++ bitsOfNat 9 inputs.length ++
  (match inputs with
   | [] => []
   | i0 :: rest => inputBits i0 ++ writeRestInputs i0 rest)

def takeBits : Nat → List Bool → Option (List Bool × List Bool)
  | 0, bs => some ([], bs)
  | _ + 1, [] => none
  | w + 1, b :: bs =>
    match takeBits w bs with
    | some (xs, rest) => some (b :: xs, rest)
    | none => none

def readNatBits (w : Nat) (bs : List Bool) : Option (Nat × List Bool) :=
  match takeBits w bs with
  | some (xs, rest) => some (natOfBits xs, rest)
  | none => none

def readBoolBit : List Bool → Option (Bool × List Bool)
  | [] => none
  | b :: bs => some (b, bs)

/-- Read the six bits of one input. -/
def readInputBits : List Bool → Option (GameInput × List Bool)
  | l :: r :: u :: d :: p :: q :: rest => some (⟨l, r, u, d, p, q⟩, rest)
  | _ => none

/-- Read path of the per-input loop: on a clear "changed" bit the input
is copied from the previous one. -/
def readRestInputs : GameInput → Nat → List Bool → Option (List GameInput × List Bool)
  | _, 0, bs => some ([], bs)
  | prev, k + 1, bs =>
    match readBoolBit bs with
    | none => none
    | some (changed, bs) =>
      if changed then
        match readInputBits bs with
        | none => none
        | some (i, bs) =>
          match readRestInputs i k bs with
          | none => none
          | some (rest, bs') => some (i :: rest, bs')
      else
        match readRestInputs prev k bs with
        | none => none
        | some (rest, bs') => some (prev :: rest, bs')

/-- Reading a `LockstepInputPacket` back from the bitstream. -/
def readInputPacket (bs : List Bool) : Option ((Nat × List GameInput) × List Bool) :=
  match readNatBits 16 bs with
  | none => none
  | some (sequence, bs) =>
    match readNatBits 9 bs with
    | none => none
    | some (n, bs) =>
      if MaxInputs < n then none
      else
        match n with
        | 0 => some ((sequence, []), bs)
        | k + 1 =>
          match readInputBits bs with
          | none => none
          | some (i0, bs) =>
            match readRestInputs i0 k bs with
            | none => none
            | some (rest, bs') => some ((sequence, i0 :: rest), bs')

/-! Helper lemmas about the disconnect path, shared by the claim
theorems below. -/

theorem Client.Disconnect_state (c : Client) :
    c.Disconnect.state = ClientState.DISCONNECTED := by
  unfold Client.Disconnect Client.ClearStateData
  split
  · next h => simpa [Client.IsDisconnected] using h
  · dsimp only
    split <;> split <;> rfl

theorem Client.Disconnect_fields (c : Client) :
    c.Disconnect.error = c.error ∧
    c.Disconnect.extendedError = c.extendedError ∧
    c.Disconnect.lastPacketReceiveTime = c.lastPacketReceiveTime ∧
    c.Disconnect.time = c.time ∧
    c.Disconnect.config = c.config := by
  unfold Client.Disconnect Client.ClearStateData
  split
  · exact ⟨rfl, rfl, rfl, rfl, rfl⟩
  · dsimp only
    split <;> split <;> exact ⟨rfl, rfl, rfl, rfl, rfl⟩

theorem Client.DisconnectAndSetError_spec (c : Client) (e : ClientError) (x : Nat) :
    (c.DisconnectAndSetError e x).state = ClientState.DISCONNECTED ∧
    (c.DisconnectAndSetError e x).error = e ∧
    (c.DisconnectAndSetError e x).extendedError = x ∧
    (c.DisconnectAndSetError e x).lastPacketReceiveTime = c.lastPacketReceiveTime ∧
    (c.DisconnectAndSetError e x).time = c.time ∧
    (c.DisconnectAndSetError e x).config = c.config := by
  obtain ⟨_, _, h3, h4, h5⟩ := c.Disconnect_fields
  exact ⟨c.Disconnect_state, rfl, rfl, h3, h4, h5⟩

theorem Client.UpdateTimeout_fires (c : Client)
    (h1 : c.state ≠ ClientState.DISCONNECTED)
    (h2 : c.lastPacketReceiveTime +
        (if c.state = ClientState.CONNECTED then c.config.connectedTimeOut
         else c.config.connectingTimeOut) < c.time) :
    c.UpdateTimeout.error = ClientError.CONNECTION_TIMED_OUT ∧
    c.UpdateTimeout.extendedError = c.state.toNat ∧
    c.UpdateTimeout.state = ClientState.DISCONNECTED := by
  unfold Client.UpdateTimeout
  rw [if_neg (by simp [Client.IsDisconnected, h1])]
  simp only [Client.IsConnected]
  rw [if_pos (by simpa using h2)]
  obtain ⟨hs, he, hx, _, _, _⟩ :=
    c.DisconnectAndSetError_spec ClientError.CONNECTION_TIMED_OUT c.state.toNat
  exact ⟨he, hx, hs⟩

theorem Client.UpdateTimeout_quiet (c : Client)
    (h2 : ¬(c.lastPacketReceiveTime +
        (if c.state = ClientState.CONNECTED then c.config.connectedTimeOut
         else c.config.connectingTimeOut) < c.time)) :
    c.UpdateTimeout = c := by
  unfold Client.UpdateTimeout
  split
  · rfl
  · simp only [Client.IsConnected]
    rw [if_neg (by simpa using h2)]

/-- C1.  The claim says a client in `READY_FOR_CONNECTION` moves to
`CONNECTED` iff `channel.ReadPacket()` succeeds.  In the source the
transition happens before the read and does not depend on its result:
the state always becomes `CONNECTED`, and only the
`lastPacketReceiveTime` refresh is conditional on the read succeeding. -/
theorem C1_ready_for_connection_transition (c : Client) (addr : Nat) (readOk : Bool)
    (h : c.state = ClientState.READY_FOR_CONNECTION) :
    (c.ProcessPacket (CSPacket.connection addr readOk)).state = ClientState.CONNECTED ∧
    (c.ProcessPacket (CSPacket.connection addr readOk)).lastPacketReceiveTime =
      (if readOk then c.time else c.lastPacketReceiveTime) := by
  simp only [Client.ProcessPacket, h]
  cases readOk <;> simp

/-- C1, counterexample to the claim as stated: the concrete client is
`READY_FOR_CONNECTION` and receives a `Connection` packet whose channel
read fails, yet the state still becomes `CONNECTED` (and the receive
time is not refreshed). -/
theorem C1_counterexample :
    demoClient.state = ClientState.READY_FOR_CONNECTION ∧
    (demoClient.ProcessPacket (CSPacket.connection 1 false)).state =
      ClientState.CONNECTED ∧
    (demoClient.ProcessPacket (CSPacket.connection 1 false)).lastPacketReceiveTime =
      demoClient.lastPacketReceiveTime := by decide

/-- C1, witness: the amended theorem applied at a concrete input. -/
theorem C1_witness :
    (demoClient.ProcessPacket (CSPacket.connection 1 true)).state =
      ClientState.CONNECTED ∧
    (demoClient.ProcessPacket (CSPacket.connection 1 true)).lastPacketReceiveTime =
      (if true then demoClient.time else demoClient.lastPacketReceiveTime) :=
  C1_ready_for_connection_transition demoClient 1 true (by decide)

/-- C3.  The claim (`error ≠ NONE` implies `DISCONNECTED` after every
operation) is the stated invariant, but `Client::Connect(const char*)`
violates it: with `PROTOCOL_USE_RESOLVER` and no resolver configured,
`DisconnectAndSetError(CLIENT_ERROR_MISSING_RESOLVER)` is not followed
by a `return`, so the code falls through, dereferences the null
resolver, and enters `RESOLVING_HOSTNAME` with the error still latched.
This theorem evaluates the model at that failing input. -/
theorem C3_missing_resolver_error_latched :
    (demoClient.ConnectByHostname "gamehost" none 99).error =
      ClientError.MISSING_RESOLVER ∧
    (demoClient.ConnectByHostname "gamehost" none 99).state =
      ClientState.RESOLVING_HOSTNAME := by decide

/-- C4, amended: `UpdateTimeout` disconnects with `CONNECTION_TIMED_OUT`
and the pre-disconnect state as extended error exactly when the client
is not already `DISCONNECTED` and `lastPacketReceiveTime + τ < now`
(`τ = connectedTimeOut` when `CONNECTED`, else `connectingTimeOut`); an
already-disconnected client is left untouched even when the inequality
holds.  `Connect(address)` does not refresh `lastPacketReceiveTime`. -/
theorem C4_timeout_exactly_when (c : Client) :
    (c.state ≠ ClientState.DISCONNECTED →
      c.lastPacketReceiveTime +
          (if c.state = ClientState.CONNECTED then c.config.connectedTimeOut
           else c.config.connectingTimeOut) < c.time →
      c.UpdateTimeout.error = ClientError.CONNECTION_TIMED_OUT ∧
      c.UpdateTimeout.extendedError = c.state.toNat ∧
      c.UpdateTimeout.state = ClientState.DISCONNECTED) ∧
    (¬(c.lastPacketReceiveTime +
          (if c.state = ClientState.CONNECTED then c.config.connectedTimeOut
           else c.config.connectingTimeOut) < c.time) →
      c.UpdateTimeout = c) ∧
    (c.state = ClientState.DISCONNECTED → c.UpdateTimeout = c) ∧
    (∀ address freshGuid : Nat,
      (c.ConnectByAddress address freshGuid).lastPacketReceiveTime =
        c.lastPacketReceiveTime) := by
  refine ⟨fun h1 h2 => c.UpdateTimeout_fires h1 h2,
          fun h2 => c.UpdateTimeout_quiet h2,
          fun h => ?_, fun address freshGuid => ?_⟩
  · unfold Client.UpdateTimeout
    rw [if_pos (by simp [Client.IsDisconnected, h])]
  · unfold Client.ConnectByAddress Client.ClearError
    dsimp only
    exact (c.Disconnect_fields).2.2.1

/-- C4, counterexample to the claim as stated: a client already in
`DISCONNECTED` whose `lastPacketReceiveTime + connectingTimeOut < now`
satisfies the claimed timeout condition, yet `UpdateTimeout` changes
nothing and no `CONNECTION_TIMED_OUT` error appears. -/
theorem C4_counterexample :
    disconnectedDemoClient.lastPacketReceiveTime +
        disconnectedDemoClient.config.connectingTimeOut <
      disconnectedDemoClient.time ∧
    disconnectedDemoClient.UpdateTimeout = disconnectedDemoClient ∧
    disconnectedDemoClient.UpdateTimeout.error ≠
      ClientError.CONNECTION_TIMED_OUT := by
  refine ⟨?_, rfl, by decide⟩
  norm_num [disconnectedDemoClient, demoClient]

/-- C4, witness: the amended theorem applied at a concrete input. -/
theorem C4_witness :
    demoClient.UpdateTimeout.error = ClientError.CONNECTION_TIMED_OUT ∧
    demoClient.UpdateTimeout.extendedError = demoClient.state.toNat ∧
    demoClient.UpdateTimeout.state = ClientState.DISCONNECTED :=
  (C4_timeout_exactly_when demoClient).1 (by decide)
    (by simp [demoClient]; norm_num)

/-- C9.  `Disconnect()` is a no-op when already `DISCONNECTED`;
otherwise it sends exactly one `Disconnected` packet stamped with the
current GUIDs, resets the channel, clears the data block sender and
receiver (when they exist) and the session state data, enters
`DISCONNECTED`, and leaves the latched `(error, extendedError)`
unchanged. -/
theorem C9_disconnect_contract (c : Client) :
    (c.state = ClientState.DISCONNECTED → c.Disconnect = c) ∧
    (c.state ≠ ClientState.DISCONNECTED →
      c.Disconnect.state = ClientState.DISCONNECTED ∧
      c.Disconnect.trace = c.trace ++
        [ClientEffect.sentDisconnected c.address c.clientGuid c.serverGuid,
         ClientEffect.connectionReset] ++
        (if c.config.hasClientData then [ClientEffect.senderCleared] else []) ++
        (if c.config.hasDataBlockReceiver then [ClientEffect.receiverCleared] else []) ∧
      c.Disconnect.address = 0 ∧ c.Disconnect.hostname = "" ∧
      c.Disconnect.clientGuid = 0 ∧ c.Disconnect.serverGuid = 0 ∧
      c.Disconnect.error = c.error ∧
      c.Disconnect.extendedError = c.extendedError) := by
  constructor
  · intro h
    unfold Client.Disconnect
    rw [if_pos (by simp [Client.IsDisconnected, h])]
  · intro h
    unfold Client.Disconnect Client.ClearStateData
    rw [if_neg (by simp [Client.IsDisconnected, h])]
    dsimp only
    by_cases hcd : c.config.hasClientData <;>
      by_cases hrv : c.config.hasDataBlockReceiver <;>
        simp [hcd, hrv]

/-- C9, witness: the contract applied to the concrete (connected-side)
client. -/
theorem C9_witness :
    demoClient.Disconnect.state = ClientState.DISCONNECTED ∧
    demoClient.Disconnect.trace = demoClient.trace ++
      [ClientEffect.sentDisconnected demoClient.address demoClient.clientGuid
         demoClient.serverGuid,
       ClientEffect.connectionReset] ++
      (if demoClient.config.hasClientData then [ClientEffect.senderCleared] else []) ++
      (if demoClient.config.hasDataBlockReceiver then [ClientEffect.receiverCleared]
       else []) ∧
    demoClient.Disconnect.address = 0 ∧ demoClient.Disconnect.hostname = "" ∧
    demoClient.Disconnect.clientGuid = 0 ∧ demoClient.Disconnect.serverGuid = 0 ∧
    demoClient.Disconnect.error = demoClient.error ∧
    demoClient.Disconnect.extendedError = demoClient.extendedError :=
  (C9_disconnect_contract demoClient).2 (by decide)

/-! Helper lemmas about data block packet processing. -/

theorem Client.processDataBlockFragment_mismatch (c : Client) (cg sg : Nat)
    (r : Option Nat) (h : cg ≠ c.clientGuid ∨ sg ≠ c.serverGuid) :
    c.ProcessDataBlockFragment cg sg r = c := by
  unfold Client.ProcessDataBlockFragment
  rcases h with h | h
  · rw [if_pos h]
  · rcases eq_or_ne cg c.clientGuid with h1 | h1
    · rw [if_neg (not_not_intro h1), if_pos h]
    · rw [if_pos h1]

theorem Client.processDataBlockFragment_noError (c : Client) (cg sg : Nat) :
    c.ProcessDataBlockFragment cg sg none = c := by
  unfold Client.ProcessDataBlockFragment
  split
  · rfl
  · split
    · rfl
    · split <;> rfl

theorem Client.processDataBlockFragment_lastRecv (c : Client) (cg sg : Nat)
    (r : Option Nat) :
    (c.ProcessDataBlockFragment cg sg r).lastPacketReceiveTime =
      c.lastPacketReceiveTime := by
  unfold Client.ProcessDataBlockFragment
  split
  · rfl
  · split
    · rfl
    · split
      · rfl
      · match r with
        | none => rfl
        | some e =>
          exact (c.DisconnectAndSetError_spec ClientError.DATA_BLOCK_ERROR e).2.2.2.1

theorem Client.processDataBlockFragmentAck_id (c : Client) (cg sg : Nat) :
    c.ProcessDataBlockFragmentAck cg sg = c := by
  unfold Client.ProcessDataBlockFragmentAck
  split
  · rfl
  · split
    · rfl
    · split <;> rfl

/-- Data block fragments that do not make the receiver error out, and
all fragment acks, leave the whole client unchanged. -/
theorem Client.processPacket_dataBlock_id (c : Client) (p : CSPacket)
    (h1 : p.isDataBlockPacket = true) (h2 : p.fragmentNoError = true) :
    c.ProcessPacket p = c := by
  cases p with
  | dataBlockFragment addr cg sg bsz nf fid fb r =>
    match r with
    | some e => simp [CSPacket.fragmentNoError] at h2
    | none =>
      cases hs : c.state <;>
        simp [Client.ProcessPacket, hs, Client.processDataBlockFragment_noError]
  | dataBlockFragmentAck addr cg sg fid =>
    cases hs : c.state <;>
      simp [Client.ProcessPacket, hs, Client.processDataBlockFragmentAck_id]
  | disconnectedPkt addr cg sg => simp [CSPacket.isDataBlockPacket] at h1
  | connectionChallenge addr cg sg => simp [CSPacket.isDataBlockPacket] at h1
  | connectionDenied addr cg reason => simp [CSPacket.isDataBlockPacket] at h1
  | readyForConnection addr cg sg => simp [CSPacket.isDataBlockPacket] at h1
  | connection addr readOk => simp [CSPacket.isDataBlockPacket] at h1

theorem Client.updateReceivePackets_dataBlock_id (c : Client) (ps : List CSPacket)
    (h : ∀ p ∈ ps, p.isDataBlockPacket = true ∧ p.fragmentNoError = true) :
    c.UpdateReceivePackets ps = c := by
  induction ps with
  | nil => rfl
  | cons p ps ih =>
    unfold Client.UpdateReceivePackets at ih ⊢
    rw [List.foldl_cons,
        Client.processPacket_dataBlock_id c p (h p (by simp)).1 (h p (by simp)).2]
    exact ih fun q hq => h q (by simp [hq])

/-- C2, amended: the source address and both GUIDs are checked on the
handshake packets (`Disconnected`, `ConnectionChallenge`,
`ConnectionDenied`, `ReadyForConnection`); `DataBlockFragment` and
`DataBlockFragmentAck` packets are checked against both GUIDs but not
the source address; `Connection` packets are processed with no GUID or
address check at all.  Every packet that fails the checks its kind
actually has is silently dropped: the client is left completely
unchanged and no error is surfaced. -/
theorem C2_session_validation (c : Client) (p : CSPacket)
    (h : c.sessionMismatch p = true) : c.ProcessPacket p = c := by
  cases p with
  | disconnectedPkt addr cg sg =>
    simp only [Client.sessionMismatch, decide_eq_true_eq] at h
    show c.ProcessDisconnected addr cg sg = c
    unfold Client.ProcessDisconnected
    rcases h with h | h | h
    · rw [if_pos h]
    · rcases eq_or_ne addr c.address with h1 | h1
      · rw [if_neg (not_not_intro h1), if_pos h]
      · rw [if_pos h1]
    · rcases eq_or_ne addr c.address with h1 | h1
      · rcases eq_or_ne cg c.clientGuid with h2 | h2
        · rw [if_neg (not_not_intro h1), if_neg (not_not_intro h2), if_pos h]
        · rw [if_neg (not_not_intro h1), if_pos h2]
      · rw [if_pos h1]
  | connectionChallenge addr cg sg =>
    simp only [Client.sessionMismatch, decide_eq_true_eq] at h
    cases hs : c.state <;> simp [Client.ProcessPacket, hs, h]
  | connectionDenied addr cg reason =>
    simp only [Client.sessionMismatch, decide_eq_true_eq] at h
    cases hs : c.state <;> simp [Client.ProcessPacket, hs, h]
  | readyForConnection addr cg sg =>
    simp only [Client.sessionMismatch, decide_eq_true_eq] at h
    cases hs : c.state <;> simp [Client.ProcessPacket, hs, h]
  | dataBlockFragment addr cg sg bsz nf fid fb r =>
    simp only [Client.sessionMismatch, decide_eq_true_eq] at h
    cases hs : c.state <;>
      simp [Client.ProcessPacket, hs, Client.processDataBlockFragment_mismatch c cg sg r h]
  | dataBlockFragmentAck addr cg sg fid =>
    simp only [Client.sessionMismatch, decide_eq_true_eq] at h
    have hack : c.ProcessDataBlockFragmentAck cg sg = c :=
      c.processDataBlockFragmentAck_id cg sg
    cases hs : c.state <;> simp [Client.ProcessPacket, hs, hack]
  | connection addr readOk => simp [Client.sessionMismatch] at h

/-- C2, counterexample to the claim as stated: a `Connection` packet
from a source address different from the session's (the session address
is 1, the packet's is 999) is not dropped — the client in
`READY_FOR_CONNECTION` still transitions to `CONNECTED` on it. -/
theorem C2_counterexample :
    demoClient.address = 1 ∧
    demoClient.state = ClientState.READY_FOR_CONNECTION ∧
    (demoClient.ProcessPacket (CSPacket.connection 999 false)).state =
      ClientState.CONNECTED := by decide

/-- C2, witness: the amended theorem applied to a fragment whose
`clientGuid` does not match the session. -/
theorem C2_witness :
    demoClient.ProcessPacket (CSPacket.dataBlockFragment 1 99 22 1000 4 0 250 none) =
      demoClient :=
  C2_session_validation demoClient _ (by decide)

/-- C10.  Processing `DataBlockFragment` / `DataBlockFragmentAck`
packets never updates `lastPacketReceiveTime`; hence a client in
`SENDING_CLIENT_DATA` that receives only (valid) data block traffic for
longer than `connectingTimeOut` after the last timer refresh times out
with `CONNECTION_TIMED_OUT`. -/
theorem C10_datablock_packets_never_refresh_timer (c : Client) (ps : List CSPacket) :
    (∀ p : CSPacket, p.isDataBlockPacket = true →
      (c.ProcessPacket p).lastPacketReceiveTime = c.lastPacketReceiveTime) ∧
    ((∀ p ∈ ps, p.isDataBlockPacket = true ∧ p.fragmentNoError = true) →
      c.state = ClientState.SENDING_CLIENT_DATA →
      c.lastPacketReceiveTime + c.config.connectingTimeOut < c.time →
      ((c.UpdateReceivePackets ps).UpdateTimeout).error =
        ClientError.CONNECTION_TIMED_OUT ∧
      ((c.UpdateReceivePackets ps).UpdateTimeout).state =
        ClientState.DISCONNECTED) := by
  constructor
  · intro p hp
    cases p with
    | dataBlockFragment addr cg sg bsz nf fid fb r =>
      cases hs : c.state <;>
        simp [Client.ProcessPacket, hs, Client.processDataBlockFragment_lastRecv]
    | dataBlockFragmentAck addr cg sg fid =>
      have hack : c.ProcessDataBlockFragmentAck cg sg = c :=
        c.processDataBlockFragmentAck_id cg sg
      cases hs : c.state <;> simp [Client.ProcessPacket, hs, hack]
    | disconnectedPkt addr cg sg => simp [CSPacket.isDataBlockPacket] at hp
    | connectionChallenge addr cg sg => simp [CSPacket.isDataBlockPacket] at hp
    | connectionDenied addr cg reason => simp [CSPacket.isDataBlockPacket] at hp
    | readyForConnection addr cg sg => simp [CSPacket.isDataBlockPacket] at hp
    | connection addr readOk => simp [CSPacket.isDataBlockPacket] at hp
  · intro hps hs hlt
    rw [c.updateReceivePackets_dataBlock_id ps hps]
    have h1 : c.state ≠ ClientState.DISCONNECTED := by simp [hs]
    have h2 : c.lastPacketReceiveTime +
        (if c.state = ClientState.CONNECTED then c.config.connectedTimeOut
         else c.config.connectingTimeOut) < c.time := by
      rw [if_neg (by simp [hs])]
      exact hlt
    obtain ⟨he, _, hst⟩ := c.UpdateTimeout_fires h1 h2
    exact ⟨he, hst⟩

/-- C10, witness: the concrete `SENDING_CLIENT_DATA` client receives one
valid fragment and one fragment ack, then times out. -/
theorem C10_witness :
    ((sendingDataDemoClient.UpdateReceivePackets
        [CSPacket.dataBlockFragment 1 11 22 1000 4 0 250 none,
         CSPacket.dataBlockFragmentAck 1 11 22 2]).UpdateTimeout).error =
      ClientError.CONNECTION_TIMED_OUT ∧
    ((sendingDataDemoClient.UpdateReceivePackets
        [CSPacket.dataBlockFragment 1 11 22 1000 4 0 250 none,
         CSPacket.dataBlockFragmentAck 1 11 22 2]).UpdateTimeout).state =
      ClientState.DISCONNECTED :=
  (C10_datablock_packets_never_refresh_timer sendingDataDemoClient _).2
    (by decide) (by decide) (by simp [sendingDataDemoClient, demoClient]; norm_num)

/-! Round-trip lemmas for the bitstream primitives. -/

theorem bitsOfNat_length (w n : Nat) : (bitsOfNat w n).length = w := by
  induction w generalizing n with
  | zero => rfl
  | succ w ih => simp [bitsOfNat, ih]

theorem natOfBits_bitsOfNat (w n : Nat) (h : n < 2 ^ w) :
    natOfBits (bitsOfNat w n) = n := by
  induction w generalizing n with
  | zero =>
    interval_cases n
    rfl
  | succ w ih =>
    have hdiv : n / 2 < 2 ^ w := by
      rw [Nat.div_lt_iff_lt_mul (by norm_num)]
      calc n < 2 ^ (w + 1) := h
        _ = 2 ^ w * 2 := by rw [Nat.pow_succ]
    have hmod : (if decide (n % 2 = 1) = true then 1 else 0) = n % 2 := by
      rcases Nat.mod_two_eq_zero_or_one n with h2 | h2 <;> simp [h2]
    calc natOfBits (bitsOfNat (w + 1) n)
        = (if decide (n % 2 = 1) = true then 1 else 0) + 2 * natOfBits (bitsOfNat w (n / 2)) := rfl
      _ = n % 2 + 2 * (n / 2) := by rw [hmod, ih _ hdiv]
      _ = n := Nat.mod_add_div n 2

theorem takeBits_append (xs rest : List Bool) :
    takeBits xs.length (xs ++ rest) = some (xs, rest) := by
  induction xs with
  | nil => rfl
  | cons b xs ih => simp [takeBits, ih]

theorem readNatBits_write (w n : Nat) (rest : List Bool) (h : n < 2 ^ w) :
    readNatBits w (bitsOfNat w n ++ rest) = some (n, rest) := by
  have ht := takeBits_append (bitsOfNat w n) rest
  rw [bitsOfNat_length] at ht
  unfold readNatBits
  rw [ht]
  simp [natOfBits_bitsOfNat w n h]

theorem readInputBits_inputBits (i : GameInput) (bs : List Bool) :
    readInputBits (inputBits i ++ bs) = some (i, bs) := by
  cases i
  rfl

theorem readRestInputs_writeRestInputs (l : List GameInput) (prev : GameInput)
    (rest : List Bool) :
    readRestInputs prev l.length (writeRestInputs prev l ++ rest) = some (l, rest) := by
  induction l generalizing prev with
  | nil => rfl
  | cons i l ih =>
    rcases eq_or_ne i prev with hip | hip
    · subst hip
      have hw : writeRestInputs i (i :: l) = false :: writeRestInputs i l := by
        simp [writeRestInputs]
      rw [hw]
      show readRestInputs i (l.length + 1)
          (false :: (writeRestInputs i l ++ rest)) = some (i :: l, rest)
      simp [readRestInputs, readBoolBit, ih]
    · have hw : writeRestInputs prev (i :: l) =
          true :: (inputBits i ++ writeRestInputs i l) := by
        simp [writeRestInputs, hip]
      rw [hw]
      show readRestInputs prev (l.length + 1)
          (true :: ((inputBits i ++ writeRestInputs i l) ++ rest)) = some (i :: l, rest)
      simp [readRestInputs, readBoolBit, List.append_assoc, readInputBits_inputBits, ih]

/-- C8.  Serialize-then-deserialize of any valid `LockstepInputPacket`
(sequence a 16-bit value, `0 ≤ num_inputs ≤ MaxInputs`) recovers the
sequence, the input count, and `inputs[0 .. num_inputs)` exactly, and
consumes exactly the written bits. -/
theorem C8_input_packet_roundtrip (sequence : Nat) (inputs : List GameInput)
    (h1 : sequence < 65536) (h2 : inputs.length ≤ MaxInputs) :
    readInputPacket (writeInputPacket sequence inputs) = some ((sequence, inputs), []) := by
  have h16 : sequence < 2 ^ 16 := by omega
  have hmax : MaxInputs = 256 := rfl
  rcases inputs with _ | ⟨i0, rest⟩
  · unfold writeInputPacket readInputPacket
    simp only [List.length_nil]
    rw [List.append_assoc, readNatBits_write 16 sequence _ h16]
    dsimp only
    rw [readNatBits_write 9 0 [] (by norm_num)]
    dsimp only
    rw [if_neg (by omega)]
  · have hn : rest.length + 1 < 2 ^ 9 := by
      simp only [List.length_cons] at h2
      omega
    unfold writeInputPacket readInputPacket
    simp only [List.length_cons]
    rw [List.append_assoc, readNatBits_write 16 sequence _ h16]
    dsimp only
    rw [readNatBits_write 9 (rest.length + 1) _ hn]
    dsimp only
    rw [if_neg (by simp only [List.length_cons] at h2; omega)]
    show (match readInputBits (inputBits i0 ++ writeRestInputs i0 rest) with
      | none => none
      | some (i0', bs) =>
        match readRestInputs i0' rest.length bs with
        | none => none
        | some (rest', bs') => some ((sequence, i0' :: rest'), bs')) =
      some ((sequence, i0 :: rest), [])
    rw [readInputBits_inputBits]
    dsimp only
    have hr := readRestInputs_writeRestInputs rest i0 []
    rw [List.append_nil] at hr
    rw [hr]

/-- C8, witness: the round trip at a concrete packet that exercises
both the changed and the copy-from-previous encodings. -/
theorem C8_witness :
    readInputPacket (writeInputPacket 777
      [⟨true, false, false, true, false, false⟩,
       ⟨true, false, false, true, false, false⟩,
       ⟨true, false, false, true, false, true⟩]) =
    some ((777,
      [⟨true, false, false, true, false, false⟩,
       ⟨true, false, false, true, false, false⟩,
       ⟨true, false, false, true, false, true⟩]), []) :=
  C8_input_packet_roundtrip 777 _ (by norm_num) (by norm_num [MaxInputs])

/-! The loop of `GetFrames`: a full characterization, shared between the
playout-delay claims. -/

theorem getFramesGo_spec (fuel : Nat) (t : ℚ) (buf : PlayoutDelayBuffer) :
    (getFramesGo fuel buf t).2.length ≤ fuel ∧
    (getFramesGo fuel buf t).2 =
      buf.input_queue.take (getFramesGo fuel buf t).2.length ∧
    (getFramesGo fuel buf t).1.input_queue =
      buf.input_queue.drop (getFramesGo fuel buf t).2.length ∧
    (getFramesGo fuel buf t).1.frame =
      buf.frame + (getFramesGo fuel buf t).2.length ∧
    (getFramesGo fuel buf t).1.stopped = buf.stopped ∧
    (getFramesGo fuel buf t).1.start_time = buf.start_time ∧
    (getFramesGo fuel buf t).1.most_recent_input = buf.most_recent_input ∧
    (∀ k < (getFramesGo fuel buf t).2.length,
      buf.start_time + ((buf.frame : ℚ) + k + 1/2) * (1/60) + 1/4 ≤ t ∧
      k < buf.input_queue.length) ∧
    ((getFramesGo fuel buf t).2.length < fuel →
      ¬(buf.start_time + ((buf.frame : ℚ) + (getFramesGo fuel buf t).2.length + 1/2) *
            (1/60) + 1/4 ≤ t ∧
        (getFramesGo fuel buf t).2.length < buf.input_queue.length)) := by
  induction fuel generalizing buf with
  | zero =>
    refine ⟨Nat.le_refl 0, rfl, by simp [getFramesGo], by simp [getFramesGo],
            rfl, rfl, rfl, ?_, ?_⟩
    · intro k hk
      simp [getFramesGo] at hk
    · intro h
      simp [getFramesGo] at h
  | succ fuel ih =>
    by_cases hlt : t < buf.start_time + ((buf.frame : ℚ) + 1/2) * (1/60) + 1/4
    · have hgo : getFramesGo (fuel + 1) buf t = (buf, []) := by
        rw [getFramesGo, if_pos hlt]
      rw [hgo]
      refine ⟨Nat.zero_le _, rfl, by simp, by simp, rfl, rfl, rfl, ?_, ?_⟩
      · intro k hk
        simp at hk
      · intro _ h
        obtain ⟨hle, _⟩ := h
        push_cast at hle
        linarith
    · rcases hq : buf.input_queue with _ | ⟨x, q⟩
      · have hgo : getFramesGo (fuel + 1) buf t = (buf, []) := by
          rw [getFramesGo, if_neg hlt, hq]
        rw [hgo]
        refine ⟨Nat.zero_le _, rfl, by simp [hq], by simp, rfl, rfl, rfl, ?_, ?_⟩
        · intro k hk
          simp at hk
        · intro _ h
          obtain ⟨_, hlen⟩ := h
          simp at hlen
      · have hgo : getFramesGo (fuel + 1) buf t =
            ((getFramesGo fuel { buf with input_queue := q, frame := buf.frame + 1 } t).1,
             x :: (getFramesGo fuel { buf with input_queue := q, frame := buf.frame + 1 } t).2) := by
          rw [getFramesGo, if_neg hlt, hq]
        obtain ⟨ih1, ih2, ih3, ih4, ih5, ih6, ih7, ih8, ih9⟩ :=
          ih { buf with input_queue := q, frame := buf.frame + 1 }
        simp only at ih2 ih3 ih4 ih5 ih6 ih7 ih8 ih9
        rw [hgo]
        simp only [List.length_cons]
        refine ⟨by omega, ?_, ?_, ?_, ih5, ih6, ih7, ?_, ?_⟩
        · rw [List.take_succ_cons]
          exact congrArg (x :: ·) ih2
        · rw [List.drop_succ_cons]
          exact ih3
        · rw [ih4]
          omega
        · intro k hk
          match k with
          | 0 =>
            refine ⟨?_, by simp⟩
            push_cast
            linarith [not_lt.mp hlt]
          | j + 1 =>
            obtain ⟨hle, hjlen⟩ := ih8 j (by omega)
            refine ⟨?_, ?_⟩
            · push_cast at hle ⊢
              linarith
            · simpa using Nat.succ_lt_succ hjlen
        · intro hn h
          obtain ⟨hle, hlen⟩ := h
          refine ih9 (by omega) ⟨?_, by omega⟩
          push_cast at hle ⊢
          linarith

/-- C7.  At time `t`, `GetFrames` emits at most `MaxSimFrames` frames;
when the buffer is stopped it emits nothing and changes nothing.
Otherwise it pops emitted inputs off the front of the queue in order,
advances `frame` by the emission count (the output count is the length
of the emitted list); every emitted frame `k` satisfies
`start_time + (frame + k + 0.5) * (1/60) + PlayoutDelay ≤ t` with the
queue still non-empty, and emission stops short of the cap only when
that condition fails for the next frame. -/
theorem C7_get_frames_emission (msf : Nat) (buf : PlayoutDelayBuffer) (t : ℚ) :
    (buf.stopped = true → buf.GetFrames msf t = (buf, [])) ∧
    (buf.stopped = false →
      (buf.GetFrames msf t).2.length ≤ msf ∧
      (buf.GetFrames msf t).2 =
        buf.input_queue.take (buf.GetFrames msf t).2.length ∧
      (buf.GetFrames msf t).1.input_queue =
        buf.input_queue.drop (buf.GetFrames msf t).2.length ∧
      (buf.GetFrames msf t).1.frame =
        buf.frame + (buf.GetFrames msf t).2.length ∧
      (buf.GetFrames msf t).1.stopped = buf.stopped ∧
      (buf.GetFrames msf t).1.start_time = buf.start_time ∧
      (buf.GetFrames msf t).1.most_recent_input = buf.most_recent_input ∧
      (∀ k < (buf.GetFrames msf t).2.length,
        buf.start_time + ((buf.frame : ℚ) + k + 1/2) * (1/60) + 1/4 ≤ t ∧
        k < buf.input_queue.length) ∧
      ((buf.GetFrames msf t).2.length < msf →
        ¬(buf.start_time +
              ((buf.frame : ℚ) + (buf.GetFrames msf t).2.length + 1/2) * (1/60) +
              1/4 ≤ t ∧
          (buf.GetFrames msf t).2.length < buf.input_queue.length))) := by
  constructor
  · intro hs
    unfold PlayoutDelayBuffer.GetFrames
    rw [if_pos hs]
  · intro hs
    unfold PlayoutDelayBuffer.GetFrames
    rw [if_neg (by simp [hs])]
    exact getFramesGo_spec msf t buf

/-- C7, witness: four frames are due and the queue holds four inputs, so
with `MaxSimFrames = 4` all four are emitted. -/
theorem C7_witness :
    ((PlayoutDelayBuffer.init.AddInputs 0 3
        [⟨true, false, false, false, false, false⟩,
         ⟨false, true, false, false, false, false⟩,
         ⟨false, false, true, false, false, false⟩]).GetFrames 4 2).2.length ≤ 4 ∧
    ((PlayoutDelayBuffer.init.AddInputs 0 3
        [⟨true, false, false, false, false, false⟩,
         ⟨false, true, false, false, false, false⟩,
         ⟨false, false, true, false, false, false⟩]).GetFrames 4 2).2 =
      ((PlayoutDelayBuffer.init.AddInputs 0 3
        [⟨true, false, false, false, false, false⟩,
         ⟨false, true, false, false, false, false⟩,
         ⟨false, false, true, false, false, false⟩]).input_queue.take
        ((PlayoutDelayBuffer.init.AddInputs 0 3
          [⟨true, false, false, false, false, false⟩,
           ⟨false, true, false, false, false, false⟩,
           ⟨false, false, true, false, false, false⟩]).GetFrames 4 2).2.length) :=
  ⟨((C7_get_frames_emission 4 _ 2).2 (by decide)).1,
   ((C7_get_frames_emission 4 _ 2).2 (by decide)).2.1⟩

/-! The playout delay buffer accumulates a contiguous run of 16-bit
sequence numbers: `AddInputs` appends exactly the batch suffix whose
sequences continue `most_recent_input`, and `GetFrames` pops from the
front, so across any interleaving the emitted frames followed by the
queue carry the sequences `0, 1, 2, …` reduced mod 2^16. -/

theorem addInputsGo_spec (inputs : List GameInput) (first : Nat) :
    ∀ (i : Nat) (buf : PlayoutDelayBuffer) (n : Nat),
      buf.most_recent_input = u16 n →
      ∃ k, (addInputsGo buf first i inputs).input_queue.map Prod.fst =
             buf.input_queue.map Prod.fst ++ (List.range' n k).map u16 ∧
           (addInputsGo buf first i inputs).most_recent_input = u16 (n + k) ∧
           (addInputsGo buf first i inputs).stopped = buf.stopped ∧
           (addInputsGo buf first i inputs).start_time = buf.start_time ∧
           (addInputsGo buf first i inputs).frame = buf.frame := by
  induction inputs with
  | nil =>
    intro i buf n hmri
    exact ⟨0, by simp [addInputsGo], by simpa [addInputsGo] using hmri, rfl, rfl, rfl⟩
  | cons inp rest ih =>
    intro i buf n hmri
    by_cases hseq : u16 (first + i) = buf.most_recent_input
    · have hstep : addInputsGo buf first i (inp :: rest) =
          addInputsGo
            { buf with
                most_recent_input := u16 (u16 (first + i) + 1)
                input_queue := buf.input_queue ++ [(u16 (first + i), inp)] }
            first (i + 1) rest := by
        simp only [addInputsGo]
        rw [if_pos hseq]
      have hmri1 : ({ buf with
          most_recent_input := u16 (u16 (first + i) + 1)
          input_queue := buf.input_queue ++ [(u16 (first + i), inp)] } :
            PlayoutDelayBuffer).most_recent_input = u16 (n + 1) := by
        show u16 (u16 (first + i) + 1) = u16 (n + 1)
        rw [hseq, hmri]
        exact Nat.mod_add_mod n 65536 1
      obtain ⟨k, hq, hm, hs, hst, hf⟩ := ih (i + 1)
        { buf with
            most_recent_input := u16 (u16 (first + i) + 1)
            input_queue := buf.input_queue ++ [(u16 (first + i), inp)] }
        (n + 1) hmri1
      rw [hstep]
      refine ⟨k + 1, ?_, ?_, hs, hst, hf⟩
      · rw [hq]
        simp only [List.map_append, List.map_cons, List.map_nil, List.append_assoc]
        congr 1
        show [u16 (first + i)] ++ (List.range' (n + 1) k).map u16 =
          (List.range' n (k + 1)).map u16
        rw [List.range'_succ]
        simp only [List.map_cons, List.singleton_append]
        congr 1
        rw [hseq, hmri]
      · rw [hm]
        congr 1
        omega
    · have hstep : addInputsGo buf first i (inp :: rest) =
          addInputsGo buf first (i + 1) rest := by
        simp only [addInputsGo]
        rw [if_neg hseq]
      rw [hstep]
      exact ih (i + 1) buf n hmri

theorem AddInputs_spec (buf : PlayoutDelayBuffer) (time : ℚ) (sequence : Nat)
    (inputs : List GameInput) (n : Nat) (hmri : buf.most_recent_input = u16 n) :
    ∃ k, (buf.AddInputs time sequence inputs).input_queue.map Prod.fst =
           buf.input_queue.map Prod.fst ++ (List.range' n k).map u16 ∧
         (buf.AddInputs time sequence inputs).most_recent_input = u16 (n + k) := by
  unfold PlayoutDelayBuffer.AddInputs
  dsimp only
  by_cases hstop : buf.stopped = true
  · rw [if_pos hstop]
    obtain ⟨k, hq, hm, _, _, _⟩ := addInputsGo_spec inputs
      (sub16 sequence inputs.length) 0
      { buf with start_time := time, stopped := false } n hmri
    exact ⟨k, hq, hm⟩
  · rw [if_neg hstop]
    obtain ⟨k, hq, hm, _, _, _⟩ := addInputsGo_spec inputs
      (sub16 sequence inputs.length) 0 buf n hmri
    exact ⟨k, hq, hm⟩

theorem GetFrames_queue (msf : Nat) (buf : PlayoutDelayBuffer) (t : ℚ) :
    (buf.GetFrames msf t).2 =
      buf.input_queue.take (buf.GetFrames msf t).2.length ∧
    (buf.GetFrames msf t).1.input_queue =
      buf.input_queue.drop (buf.GetFrames msf t).2.length ∧
    (buf.GetFrames msf t).1.most_recent_input = buf.most_recent_input := by
  unfold PlayoutDelayBuffer.GetFrames
  split
  · exact ⟨by simp, by simp, rfl⟩
  · obtain ⟨_, h2, h3, _, _, _, h7, _, _⟩ := getFramesGo_spec msf t buf
    exact ⟨h2, h3, h7⟩

theorem runPDOps_contiguous (msf : Nat) (ops : List PDOp) :
    ∀ (st : PlayoutDelayBuffer × List (Nat × GameInput)) (total : Nat),
      st.2.map Prod.fst ++ st.1.input_queue.map Prod.fst = (List.range total).map u16 →
      st.1.most_recent_input = u16 total →
      ∃ total2,
        (runPDOps msf st ops).2.map Prod.fst ++
          (runPDOps msf st ops).1.input_queue.map Prod.fst =
            (List.range total2).map u16 ∧
        (runPDOps msf st ops).1.most_recent_input = u16 total2 := by
  induction ops with
  | nil =>
    intro st total h1 h2
    exact ⟨total, h1, h2⟩
  | cons op ops ih =>
    intro st total h1 h2
    rcases st with ⟨buf, em⟩
    cases op with
    | add time sequence inputs =>
      obtain ⟨k, hq, hm⟩ := AddInputs_spec buf time sequence inputs total h2
      show ∃ total2,
        (runPDOps msf (buf.AddInputs time sequence inputs, em) ops).2.map Prod.fst ++
          (runPDOps msf (buf.AddInputs time sequence inputs, em) ops).1.input_queue.map
            Prod.fst = (List.range total2).map u16 ∧
        (runPDOps msf (buf.AddInputs time sequence inputs, em) ops).1.most_recent_input =
          u16 total2
      refine ih (buf.AddInputs time sequence inputs, em) (total + k) ?_ hm
      show em.map Prod.fst ++
          (buf.AddInputs time sequence inputs).input_queue.map Prod.fst =
        (List.range (total + k)).map u16
      rw [hq, ← List.append_assoc]
      have h1' : em.map Prod.fst ++ buf.input_queue.map Prod.fst =
          (List.range total).map u16 := h1
      rw [h1', ← List.map_append]
      congr 1
      rw [List.range_eq_range', List.range_eq_range']
      have h := List.range'_append_1 0 total k
      simp only [Nat.zero_add] at h
      rw [h, Nat.add_comm k total]
    | get time =>
      obtain ⟨g1, g2, g3⟩ := GetFrames_queue msf buf time
      show ∃ total2,
        (runPDOps msf ((buf.GetFrames msf time).1,
            em ++ (buf.GetFrames msf time).2) ops).2.map Prod.fst ++
          (runPDOps msf ((buf.GetFrames msf time).1,
            em ++ (buf.GetFrames msf time).2) ops).1.input_queue.map Prod.fst =
            (List.range total2).map u16 ∧
        (runPDOps msf ((buf.GetFrames msf time).1,
            em ++ (buf.GetFrames msf time).2) ops).1.most_recent_input = u16 total2
      refine ih ((buf.GetFrames msf time).1, em ++ (buf.GetFrames msf time).2) total
        ?_ (by rw [g3]; exact h2)
      show (em ++ (buf.GetFrames msf time).2).map Prod.fst ++
          (buf.GetFrames msf time).1.input_queue.map Prod.fst =
        (List.range total).map u16
      rw [g1, g2]
      rw [List.map_append, List.map_take, List.map_drop, List.append_assoc,
          List.take_append_drop]
      exact h1

/-- C5.  `AddInputs` appends exactly those inputs of a batch whose
(16-bit) sequence continues the current `most_recent_input`, advancing
it by the number appended — so for every interleaving of `AddInputs`
and `GetFrames` operations, the sequence numbers of the emitted frames
followed by those still queued are exactly `0, 1, 2, …` reduced
mod 2^16: strictly increasing under 16-bit wrap, gap-free, and
duplicate-free, whatever overlapping, retransmitted, or reordered
batches arrive. -/
theorem C5_playout_gapless (msf : Nat) (ops : List PDOp) :
    (∀ (buf : PlayoutDelayBuffer) (time : ℚ) (sequence : Nat)
        (inputs : List GameInput) (n : Nat),
      buf.most_recent_input = u16 n →
      ∃ k, (buf.AddInputs time sequence inputs).input_queue.map Prod.fst =
             buf.input_queue.map Prod.fst ++ (List.range' n k).map u16 ∧
           (buf.AddInputs time sequence inputs).most_recent_input = u16 (n + k)) ∧
    (∃ total,
      ((runPDOps msf (PlayoutDelayBuffer.init, []) ops).2.map Prod.fst ++
       (runPDOps msf (PlayoutDelayBuffer.init, []) ops).1.input_queue.map Prod.fst) =
        (List.range total).map u16 ∧
      (runPDOps msf (PlayoutDelayBuffer.init, []) ops).1.most_recent_input =
        u16 total) := by
  constructor
  · exact fun buf time sequence inputs n h => AddInputs_spec buf time sequence inputs n h
  · exact runPDOps_contiguous msf ops (PlayoutDelayBuffer.init, []) 0 rfl rfl

/-- C5, witness: the theorem applied at a concrete initial buffer, a
concrete (partly overlapping) batch, and a concrete operation list. -/
theorem C5_witness :
    (∃ k, (PlayoutDelayBuffer.init.AddInputs 0 3
        [⟨true, false, false, false, false, false⟩,
         ⟨false, true, false, false, false, false⟩,
         ⟨false, false, true, false, false, false⟩]).input_queue.map Prod.fst =
          PlayoutDelayBuffer.init.input_queue.map Prod.fst ++
            (List.range' 0 k).map u16 ∧
      (PlayoutDelayBuffer.init.AddInputs 0 3
        [⟨true, false, false, false, false, false⟩,
         ⟨false, true, false, false, false, false⟩,
         ⟨false, false, true, false, false, false⟩]).most_recent_input = u16 (0 + k)) ∧
    (∃ total,
      ((runPDOps 4 (PlayoutDelayBuffer.init, [])
          [PDOp.add 0 3 [⟨true, false, false, false, false, false⟩],
           PDOp.get 2]).2.map Prod.fst ++
       (runPDOps 4 (PlayoutDelayBuffer.init, [])
          [PDOp.add 0 3 [⟨true, false, false, false, false, false⟩],
           PDOp.get 2]).1.input_queue.map Prod.fst) =
        (List.range total).map u16 ∧
      (runPDOps 4 (PlayoutDelayBuffer.init, [])
          [PDOp.add 0 3 [⟨true, false, false, false, false, false⟩],
           PDOp.get 2]).1.most_recent_input = u16 total) :=
  ⟨(C5_playout_gapless 4 [PDOp.add 0 3 [⟨true, false, false, false, false, false⟩],
      PDOp.get 2]).1 PlayoutDelayBuffer.init 0 3
      [⟨true, false, false, false, false, false⟩,
       ⟨false, true, false, false, false, false⟩,
       ⟨false, false, true, false, false, false⟩] 0 rfl,
   (C5_playout_gapless 4 [PDOp.add 0 3 [⟨true, false, false, false, false, false⟩],
      PDOp.get 2]).2⟩

/-! The receiver-side ack computation of the lockstep tick. -/

/-- Within a half-window of 32768 around a common base, the 16-bit wrap
comparison agrees with the ordering of the distances from the base. -/
theorem seq_gt_iff_window (base a b : Nat) (ha : a < 65536) (hb : b < 65536)
    (hka : sub16 a base < 32768) (hkb : sub16 b base < 32768) :
    sequence_greater_than a b = true ↔ sub16 b base < sub16 a base := by
  unfold sequence_greater_than sub16 u16 at *
  simp only [Bool.decide_and, Bool.and_eq_true, decide_eq_true_eq]
  omega

theorem inputCandidates_lt (pkts : List RxPacket) :
    ∀ x ∈ inputCandidates pkts, x < 65536 := by
  induction pkts with
  | nil =>
    intro x hx
    simp [inputCandidates] at hx
  | cons p pkts ih =>
    intro x hx
    rcases p with ⟨port, payload⟩
    cases payload with
    | inputPayload seq inputs =>
      by_cases hport : port = RightPort
      · have hcand : inputCandidates (⟨port, RxPayload.inputPayload seq inputs⟩ :: pkts) =
            sub16 seq 1 :: inputCandidates pkts := by
          simp only [inputCandidates]
          rw [if_pos hport]
        rw [hcand] at hx
        rcases List.mem_cons.mp hx with h | h
        · rw [h]
          unfold sub16 u16
          omega
        · exact ih x h
      · have hcand : inputCandidates (⟨port, RxPayload.inputPayload seq inputs⟩ :: pkts) =
            inputCandidates pkts := by
          simp only [inputCandidates]
          rw [if_neg hport]
        rw [hcand] at hx
        exact ih x hx
    | ackPayload a => exact ih x hx

theorem foldl_wrapMax_spec (base : Nat) (cs : List Nat) :
    ∀ c, c < 65536 → sub16 c base < 32768 →
      (∀ x ∈ cs, x < 65536 ∧ sub16 x base < 32768) →
      (cs.foldl wrapMax c ∈ c :: cs) ∧
      (∀ x ∈ c :: cs, sub16 x base ≤ sub16 (cs.foldl wrapMax c) base) := by
  induction cs with
  | nil =>
    intro c _ _ _
    refine ⟨by simp, ?_⟩
    intro x hx
    rcases List.mem_cons.mp hx with h | h
    · subst h; exact Nat.le_refl _
    · simp at h
  | cons d cs ih =>
    intro c hc hcw hall
    obtain ⟨hd, hdw⟩ := hall d (by simp)
    have hall' : ∀ x ∈ cs, x < 65536 ∧ sub16 x base < 32768 :=
      fun x hx => hall x (by simp [hx])
    have hm : wrapMax c d = c ∨ wrapMax c d = d := by
      unfold wrapMax
      split
      · exact Or.inr rfl
      · exact Or.inl rfl
    have hmlt : wrapMax c d < 65536 := by rcases hm with h | h <;> rw [h] <;> assumption
    have hmw : sub16 (wrapMax c d) base < 32768 := by
      rcases hm with h | h <;> rw [h] <;> assumption
    have hkey : sub16 c base ≤ sub16 (wrapMax c d) base ∧
                sub16 d base ≤ sub16 (wrapMax c d) base := by
      unfold wrapMax
      by_cases hgt : sequence_greater_than d c = true
      · rw [if_pos hgt]
        have := (seq_gt_iff_window base d c hd hc hdw hcw).mp hgt
        exact ⟨Nat.le_of_lt this, Nat.le_refl _⟩
      · rw [if_neg hgt]
        have := (seq_gt_iff_window base d c hd hc hdw hcw).not.mp hgt
        exact ⟨Nat.le_refl _, Nat.le_of_not_lt this⟩
    obtain ⟨ihmem, ihmax⟩ := ih (wrapMax c d) hmlt hmw hall'
    rw [List.foldl_cons]
    constructor
    · rcases List.mem_cons.mp ihmem with h | h
      · rw [h]
        rcases hm with hcd | hcd <;> rw [hcd] <;> simp
      · simp [h]
    · intro x hx
      have hstep : sub16 (wrapMax c d) base ≤
          sub16 (cs.foldl wrapMax (wrapMax c d)) base :=
        ihmax (wrapMax c d) (by simp)
      rcases List.mem_cons.mp hx with h | h
      · subst h
        exact le_trans hkey.1 hstep
      · rcases List.mem_cons.mp h with h2 | h2
        · subst h2
          exact le_trans hkey.2 hstep
        · exact ihmax x (by simp [h2])

theorem rxFold_tcp (t : ℚ) (pkts : List RxPacket) :
    ∀ st : RxTickState,
      (pkts.foldl (processRxPacket true t) st).received_input_this_frame =
        st.received_input_this_frame ∧
      (pkts.foldl (processRxPacket true t) st).ack_sequence = st.ack_sequence := by
  induction pkts with
  | nil => intro st; exact ⟨rfl, rfl⟩
  | cons p pkts ih =>
    intro st
    rw [List.foldl_cons]
    have hfields : (processRxPacket true t st p).received_input_this_frame =
        st.received_input_this_frame ∧
        (processRxPacket true t st p).ack_sequence = st.ack_sequence := by
      rcases p with ⟨port, payload⟩
      cases payload with
      | inputPayload seq inputs =>
        unfold processRxPacket
        dsimp only
        split
        · exact ⟨rfl, rfl⟩
        · exact ⟨rfl, rfl⟩
      | ackPayload a => exact ⟨rfl, rfl⟩
    obtain ⟨h1, h2⟩ := ih (processRxPacket true t st p)
    rw [h1, h2, hfields.1, hfields.2]
    exact ⟨rfl, rfl⟩

theorem rxFold_ack (t : ℚ) (pkts : List RxPacket) :
    ∀ st : RxTickState,
      (st.received_input_this_frame = true →
        (pkts.foldl (processRxPacket false t) st).received_input_this_frame = true ∧
        (pkts.foldl (processRxPacket false t) st).ack_sequence =
          (inputCandidates pkts).foldl wrapMax st.ack_sequence) ∧
      (st.received_input_this_frame = false →
        (inputCandidates pkts = [] →
          (pkts.foldl (processRxPacket false t) st).received_input_this_frame = false ∧
          (pkts.foldl (processRxPacket false t) st).ack_sequence = st.ack_sequence) ∧
        (∀ c cs, inputCandidates pkts = c :: cs →
          (pkts.foldl (processRxPacket false t) st).received_input_this_frame = true ∧
          (pkts.foldl (processRxPacket false t) st).ack_sequence =
            cs.foldl wrapMax c)) := by
  induction pkts with
  | nil =>
    intro st
    refine ⟨fun h => ⟨h, rfl⟩, fun h => ⟨fun _ => ⟨h, rfl⟩, fun c cs hc => ?_⟩⟩
    simp [inputCandidates] at hc
  | cons p pkts ih =>
    intro st
    rcases p with ⟨port, payload⟩
    cases payload with
    | ackPayload a =>
      have hstep : processRxPacket false t st ⟨port, RxPayload.ackPayload a⟩ = st := rfl
      have hcand : inputCandidates (⟨port, RxPayload.ackPayload a⟩ :: pkts) =
          inputCandidates pkts := rfl
      rw [List.foldl_cons, hstep, hcand]
      exact ih st
    | inputPayload seq inputs =>
      by_cases hport : port = RightPort
      · have hcand : inputCandidates (⟨port, RxPayload.inputPayload seq inputs⟩ :: pkts) =
            sub16 seq 1 :: inputCandidates pkts := by
          simp only [inputCandidates]
          rw [if_pos hport]
        rw [List.foldl_cons, hcand]
        constructor
        · intro hrecv
          have hstep :
              (processRxPacket false t st
                ⟨port, RxPayload.inputPayload seq inputs⟩).received_input_this_frame =
                true ∧
              (processRxPacket false t st
                ⟨port, RxPayload.inputPayload seq inputs⟩).ack_sequence =
                wrapMax st.ack_sequence (sub16 seq 1) := by
            unfold processRxPacket wrapMax
            dsimp only
            rw [if_pos hport]
            by_cases hgt :
                sequence_greater_than (sub16 seq 1) st.ack_sequence = true
            · simp [hrecv, hgt]
            · simp [hrecv, hgt]
          obtain ⟨hr, ha⟩ :=
            (ih (processRxPacket false t st
              ⟨port, RxPayload.inputPayload seq inputs⟩)).1 hstep.1
          refine ⟨hr, ?_⟩
          rw [ha, hstep.2, List.foldl_cons]
        · intro hrecv
          have hstep :
              (processRxPacket false t st
                ⟨port, RxPayload.inputPayload seq inputs⟩).received_input_this_frame =
                true ∧
              (processRxPacket false t st
                ⟨port, RxPayload.inputPayload seq inputs⟩).ack_sequence =
                sub16 seq 1 := by
            unfold processRxPacket
            dsimp only
            rw [if_pos hport]
            simp [hrecv]
          obtain ⟨hr, ha⟩ :=
            (ih (processRxPacket false t st
              ⟨port, RxPayload.inputPayload seq inputs⟩)).1 hstep.1
          refine ⟨fun hnil => absurd hnil (by simp), fun c cs hccs => ?_⟩
          injection hccs with hc hcs
          subst hc
          subst hcs
          refine ⟨hr, ?_⟩
          rw [ha, hstep.2]
      · have hstep : processRxPacket false t st
            ⟨port, RxPayload.inputPayload seq inputs⟩ = st := by
          unfold processRxPacket
          dsimp only
          rw [if_neg hport]
        have hcand : inputCandidates (⟨port, RxPayload.inputPayload seq inputs⟩ :: pkts) =
            inputCandidates pkts := by
          simp only [inputCandidates]
          rw [if_neg hport]
        rw [List.foldl_cons, hstep, hcand]
        exact ih st

/-- C6, amended: on the lockstep receiver each input packet arriving on
the right port yields the candidate ack `packet.sequence - 1` (16-bit);
the retained `ack_sequence` is the first candidate successively replaced
by any later candidate that is sequence-wrap-greater — which is the
maximum under the wrap comparison whenever all of the tick's candidates
lie within half the sequence space of a common base (it is then a
candidate no candidate is wrap-greater than).  Exactly one
`AckPacket { ack = ack_sequence }` is sent at end of tick iff at least
one input packet was received and the transport is not in
TCP-equivalent mode; in TCP mode the receiver never emits an ack. -/
theorem C6_receiver_ack_amended (t : ℚ) (buf : PlayoutDelayBuffer)
    (pkts : List RxPacket) :
    (tickAckSent (runRxTick true t buf pkts) = none) ∧
    (inputCandidates pkts = [] → tickAckSent (runRxTick false t buf pkts) = none) ∧
    (∀ c cs, inputCandidates pkts = c :: cs →
      tickAckSent (runRxTick false t buf pkts) = some (cs.foldl wrapMax c)) ∧
    (∀ c cs base, inputCandidates pkts = c :: cs →
      (∀ x ∈ c :: cs, sub16 x base < 32768) →
      cs.foldl wrapMax c ∈ c :: cs ∧
      ∀ x ∈ c :: cs, sequence_greater_than x (cs.foldl wrapMax c) = false) := by
  refine ⟨?_, ?_, ?_, ?_⟩
  · unfold runRxTick tickAckSent
    rw [(rxFold_tcp t pkts ⟨false, 0, buf⟩).1]
    simp
  · intro hnil
    unfold runRxTick tickAckSent
    obtain ⟨hr, _⟩ := ((rxFold_ack t pkts ⟨false, 0, buf⟩).2 rfl).1 hnil
    rw [hr]
    simp
  · intro c cs hccs
    unfold runRxTick tickAckSent
    obtain ⟨hr, ha⟩ := ((rxFold_ack t pkts ⟨false, 0, buf⟩).2 rfl).2 c cs hccs
    rw [hr, ha]
    simp
  · intro c cs base hccs hwin
    have hlt : ∀ x ∈ c :: cs, x < 65536 := by
      intro x hx
      exact inputCandidates_lt pkts x (by rw [hccs]; exact hx)
    obtain ⟨hmem, hmax⟩ := foldl_wrapMax_spec base cs c
      (hlt c (by simp)) (hwin c (by simp))
      (fun x hx => ⟨hlt x (by simp [hx]), hwin x (by simp [hx])⟩)
    refine ⟨hmem, ?_⟩
    intro x hx
    have hiff := seq_gt_iff_window base x (cs.foldl wrapMax c)
      (hlt x hx) (hlt _ hmem) (hwin x hx) (hwin _ hmem)
    exact Bool.eq_false_iff.mpr
      (fun hgt => absurd (hiff.mp hgt) (not_lt.mpr (hmax x hx)))

/-- C6, counterexample to "the retained `ack_sequence` is the maximum
under 16-bit sequence-wrap comparison": with the three candidates
`0, 30000, 60000` in one tick (a wrap-comparison cycle), the retained
value is `60000`, yet the candidate `0` is sequence-wrap-greater than
`60000`, so the retained value is not a maximum of the candidates. -/
theorem C6_counterexample :
    (runRxTick false 0 PlayoutDelayBuffer.init
        [⟨RightPort, RxPayload.inputPayload 1 [⟨true, true, true, true, true, true⟩]⟩,
         ⟨RightPort, RxPayload.inputPayload 30001 [⟨true, true, true, true, true, true⟩]⟩,
         ⟨RightPort, RxPayload.inputPayload 60001
           [⟨true, true, true, true, true, true⟩]⟩]).ack_sequence = 60000 ∧
    (0 : Nat) ∈ inputCandidates
        [⟨RightPort, RxPayload.inputPayload 1 [⟨true, true, true, true, true, true⟩]⟩,
         ⟨RightPort, RxPayload.inputPayload 30001 [⟨true, true, true, true, true, true⟩]⟩,
         ⟨RightPort, RxPayload.inputPayload 60001
           [⟨true, true, true, true, true, true⟩]⟩] ∧
    sequence_greater_than 0 60000 = true := by decide

/-- C6, witness: the amended theorem applied to a concrete two-packet
tick whose candidates `4, 6` lie in a common half-window. -/
theorem C6_witness :
    tickAckSent (runRxTick false 0 PlayoutDelayBuffer.init
        [⟨RightPort, RxPayload.inputPayload 5 [⟨true, false, false, false, false, false⟩]⟩,
         ⟨RightPort, RxPayload.inputPayload 7
           [⟨true, false, false, false, false, false⟩]⟩]) =
      some ([6].foldl wrapMax 4) ∧
    ([6].foldl wrapMax 4 ∈ 4 :: [6] ∧
     ∀ x ∈ 4 :: [6], sequence_greater_than x ([6].foldl wrapMax 4) = false) :=
  ⟨(C6_receiver_ack_amended 0 PlayoutDelayBuffer.init
      [⟨RightPort, RxPayload.inputPayload 5 [⟨true, false, false, false, false, false⟩]⟩,
       ⟨RightPort, RxPayload.inputPayload 7
         [⟨true, false, false, false, false, false⟩]⟩]).2.2.1 4 [6] (by decide),
   (C6_receiver_ack_amended 0 PlayoutDelayBuffer.init
      [⟨RightPort, RxPayload.inputPayload 5 [⟨true, false, false, false, false, false⟩]⟩,
       ⟨RightPort, RxPayload.inputPayload 7
         [⟨true, false, false, false, false, false⟩]⟩]).2.2.2 4 [6] 0 (by decide)
     (by decide)⟩

end NetProto
